import Mathlib

/-!
Verification of nginx-request-exporter (`nginx_request_exporter.go`).

Shallow embedding conventions:
* `float64` values are modelled as exact rationals (`ℚ`); the claims under
  study concern ordering, identity and accumulation of values, not binary
  floating-point rounding.
* Prometheus counters are modelled as `Nat` (monotone, incremented by 1).
* `strconv.ParseFloat` is modelled on its decimal grammar
  (sign, digits, optional fraction, optional exponent).
* String splitting and trimming are implemented by structural recursion on
  character lists, mirroring `strings.Split` and `strings.TrimSpace`.
* The process-global Prometheus registry is modelled as an association list
  keyed by metric name, matching the library's per-name identity check
  (same name and same label-name sequence adopts the existing collector;
  same name with different label names is a registration error).
* The `parseMessage` line parser is not part of the sources provided
  (only its caller is); it is modelled from the spec, see below.
-/

/-- Decimal digit value of a character. -/
def digitVal (c : Char) : Nat := c.toNat - 48

/-- Natural number denoted by a list of decimal digit characters. -/
def natOfDigits (cs : List Char) : Nat := cs.foldl (fun a c => 10 * a + digitVal c) 0

/-- Ten to a natural power, as a natural number. -/
def npow10 : Nat → Nat
  | 0 => 1
  | n + 1 => 10 * npow10 n

/-- Split a character list at every separator character; the separator is
dropped and empty pieces are kept (the behaviour of `strings.Split` for a
one-character separator). -/
def splitOnChar (sep : Char) : List Char → List (List Char)
  | [] => [[]]
  | c :: rest =>
    match splitOnChar sep rest with
    | [] => [[c]]
    | h :: t => if c = sep then [] :: h :: t else (c :: h) :: t

/-- Split a character list at every character satisfying the predicate. -/
def splitWhenChar (p : Char → Bool) : List Char → List (List Char)
  | [] => [[]]
  | c :: rest =>
    match splitWhenChar p rest with
    | [] => [[c]]
    | h :: t => if p c then [] :: h :: t else (c :: h) :: t

/-- Strip leading and trailing whitespace (`strings.TrimSpace`). -/
def trimChars (cs : List Char) : List Char :=
  ((cs.dropWhile Char.isWhitespace).reverse.dropWhile Char.isWhitespace).reverse

/-- Optional exponent suffix of a decimal float: empty means exponent 0;
otherwise `e`/`E`, an optional sign, and at least one digit. -/
def parseExp (cs : List Char) : Option Int :=
  match cs with
  | [] => some 0
  | c :: rest =>
    if c = 'e' ∨ c = 'E' then
      let sd : Int × List Char :=
        match rest with
        | '+' :: t => (1, t)
        | '-' :: t => (-1, t)
        | t => (1, t)
      if sd.2 ≠ [] ∧ sd.2.all Char.isDigit then
        some (sd.1 * (natOfDigits sd.2 : Int))
      else none
    else none

/-- Mantissa of a decimal float: digits with an optional dot and fractional
digits, at least one digit overall; returns the digit string's value, the
number of fractional digits, and the unconsumed rest. -/
def parseMantissa (cs : List Char) : Option (Int × Nat × List Char) :=
  let ip := cs.takeWhile Char.isDigit
  let rest := cs.dropWhile Char.isDigit
  match rest with
  | '.' :: rest2 =>
    let fp := rest2.takeWhile Char.isDigit
    let rest3 := rest2.dropWhile Char.isDigit
    if ip.isEmpty ∧ fp.isEmpty then none
    else some ((natOfDigits (ip ++ fp) : Int), fp.length, rest3)
  | _ =>
    if ip.isEmpty then none
    else some ((natOfDigits ip : Int), 0, rest)

/-- Model of `strconv.ParseFloat` (decimal forms), producing an exact
rational: optional sign, mantissa, optional exponent; the whole string must
be consumed. -/
def parseFloat (s : String) : Option ℚ :=
  let sc : Int × List Char :=
    match s.data with
    | '+' :: t => (1, t)
    | '-' :: t => (-1, t)
    | t => (1, t)
  match parseMantissa sc.2 with
  | none => none
  | some mfr =>
    match parseExp mfr.2.2 with
    | none => none
    | some e =>
      let shift : Int := e - (mfr.2.1 : Int)
      if 0 ≤ shift then some (mkRat (sc.1 * mfr.1 * (npow10 shift.toNat : Int)) 1)
      else some (mkRat (sc.1 * mfr.1) (npow10 (-shift).toNat))

/-- One `key:value` metric token of a log line (`metric` in the source). -/
structure ParsedMetric where
  name : String
  value : ℚ
deriving DecidableEq

/-- The shared label set of a log line (`labelset` in the source). -/
structure LabelSet where
  names : List String
  values : List String
deriving DecidableEq

/-- Parse errors of the line parser, as named by the spec. -/
inductive ParseError where
  | invalidMetricValue (key : String)
  | malformedToken (token : String)
  | missingHostname
deriving DecidableEq

deriving instance DecidableEq for Except

/-- Whitespace-separated tokens of a log line. -/
def tokenize (s : String) : List String :=
  ((splitWhenChar Char.isWhitespace s.data).filter (fun t => t ≠ [])).map String.mk

/-- Strip exactly one leading and one trailing double quote from a quoted
label value; unquoted values are returned unchanged. -/
def stripQuotes (v : String) : String :=
  let cs := v.data
  if 2 ≤ cs.length ∧ cs.head? = some '"' ∧ cs.getLast? = some '"' then
    String.mk (cs.drop 1).dropLast
  else v

/-- Split a token at the first occurrence of the delimiter, which is removed. -/
def splitTokenAt (c : Char) (t : List Char) : List Char × List Char :=
  (t.takeWhile (fun x => x ≠ c), (t.dropWhile (fun x => x ≠ c)).drop 1)

/-- Modelled from the spec: classification of one token of the line-parser
grammar (`parseMessage` is absent from the provided sources). A token
containing both `:` and `=`, or neither, is malformed; a `key:value` token
is a metric whose value must parse as a number; a `key=value` token is a
label whose value may be wrapped in double quotes. -/
def parseToken (tok : String) : Except ParseError (ParsedMetric ⊕ (String × String)) :=
  let hasColon := tok.data.contains ':'
  let hasEq := tok.data.contains '='
  if hasColon ∧ hasEq then .error (.malformedToken tok)
  else if hasColon then
    let kv := splitTokenAt ':' tok.data
    match parseFloat (String.mk kv.2) with
    | some q => .ok (.inl ⟨String.mk kv.1, q⟩)
    | none => .error (.invalidMetricValue (String.mk kv.1))
  else if hasEq then
    let kv := splitTokenAt '=' tok.data
    .ok (.inr (String.mk kv.1, stripQuotes (String.mk kv.2)))
  else .error (.malformedToken tok)

/-- Modelled from the spec: fold the token classification over a token list,
keeping metrics and labels in input order; the first token error fails the
whole line. -/
def parseTokens : List String → Except ParseError (List ParsedMetric × List (String × String))
  | [] => .ok ([], [])
  | t :: ts =>
    match parseToken t with
    | .error e => .error e
    | .ok r =>
      match parseTokens ts with
      | .error e => .error e
      | .ok ml =>
        match r with
        | .inl m => .ok (m :: ml.1, ml.2)
        | .inr l => .ok (ml.1, l :: ml.2)

/-- Does the label list contain a label named `hostname` with a non-empty
value? -/
def hostnameOk (ls : List (String × String)) : Bool :=
  ls.any (fun p => p.1 == "hostname" && p.2 != "")

/-- Modelled from the spec: the line parser `parse` / `parseMessage`
(absent from the provided sources). Tokenizes on whitespace, classifies
every token, and requires a `hostname` label with a non-empty value. -/
def parseMessage (line : String) : Except ParseError (List ParsedMetric × LabelSet) :=
  match parseTokens (tokenize line) with
  | .error e => .error e
  | .ok ml =>
    if hostnameOk ml.2 then .ok (ml.1, ⟨ml.2.map Prod.fst, ml.2.map Prod.snd⟩)
    else .error .missingHostname

/-- Did the line parser fail on this content? -/
def parseFails (content : String) : Bool :=
  match parseMessage content with
  | .error _ => true
  | .ok _ => false

/-- One live histogram collector: its bucket boundaries and registered
label-name sequence (fixed at creation) and the list of observations
(label values, observed value) recorded against it, in order. -/
structure Collector where
  buckets : List ℚ
  labelNames : List String
  obs : List (List String × ℚ)
deriving DecidableEq

/-- The process-wide registry: metric name to collector, insertion order. -/
abbrev Registry := List (String × Collector)

/-- Look up the collector registered under a metric name. -/
def regFind (reg : Registry) (name : String) : Option Collector :=
  match reg with
  | [] => none
  | p :: rest => if p.1 = name then some p.2 else regFind rest name

/-- Replace the first collector registered under `name`, or append a new
entry when the name is not yet registered. -/
def regUpdate : Registry → String → Collector → Registry
  | [], name, c => [(name, c)]
  | p :: rest, name, c =>
    if p.1 = name then (name, c) :: rest else p :: regUpdate rest name c

/-- Number of registry entries carrying a given metric name. -/
def countName (reg : Registry) (name : String) : Nat :=
  (reg.filter (fun p => p.1 = name)).length

/-- One iteration of the metric loop of `processMetricsFromSyslog`
(source lines 87-104): build a histogram collector for the metric, register
it — adopting the existing collector when the name is already registered
with the same label names, dropping the metric on any other registration
error (label-name conflict) — then observe the value with the line's label
values. -/
def observeMetric (floatBuckets : List ℚ) (labels : LabelSet) (reg : Registry)
    (m : ParsedMetric) : Registry :=
  match regFind reg m.name with
  | none => regUpdate reg m.name ⟨floatBuckets, labels.names, [(labels.values, m.value)]⟩
  | some c =>
    if c.labelNames = labels.names then
      regUpdate reg m.name { c with obs := c.obs ++ [(labels.values, m.value)] }
    else reg

/-- The metric loop of `processMetricsFromSyslog` over all metrics of one
parsed line, in order. -/
def observeMetrics (floatBuckets : List ℚ) (labels : LabelSet) :
    List ParsedMetric → Registry → Registry
  | [], reg => reg
  | m :: ms, reg => observeMetrics floatBuckets labels ms (observeMetric floatBuckets labels reg m)

/-- One syslog message as consumed by the pipeline: the three transport
fields it reads (a missing or non-string field reads as `""`). -/
structure SyslogMessage where
  tag : String
  hostname : String
  content : String
deriving DecidableEq

/-- Pipeline state: the two counters and the collector registry. -/
structure PState where
  syslogMessages : Nat
  syslogParseFailures : Nat
  registry : Registry
deriving DecidableEq

/-- The startup state: both counters zero, empty registry. -/
def initialState : PState := ⟨0, 0, []⟩

/-- One iteration of the message loop of `processMetricsFromSyslog`
(source lines 59-105): increment the received counter unconditionally;
drop (with a parse-failure increment) on wrong tag, empty hostname or empty
content; invoke the line parser, dropping the message on error with only a
log (no parse-failure increment); otherwise run the metric loop. -/
def processMessage (floatBuckets : List ℚ) (s : PState) (part : SyslogMessage) : PState :=
  let s := { s with syslogMessages := s.syslogMessages + 1 }
  if part.tag ≠ "nginx" then
    { s with syslogParseFailures := s.syslogParseFailures + 1 }
  else if part.hostname = "" then
    { s with syslogParseFailures := s.syslogParseFailures + 1 }
  else if part.content = "" then
    { s with syslogParseFailures := s.syslogParseFailures + 1 }
  else
    match parseMessage part.content with
    | .error _ => s
    | .ok ml => { s with registry := observeMetrics floatBuckets ml.2 ml.1 s.registry }

/-- The message loop of `processMetricsFromSyslog` over a finite stream. -/
def processMetricsFromSyslog (floatBuckets : List ℚ) (s : PState)
    (msgs : List SyslogMessage) : PState :=
  msgs.foldl (processMessage floatBuckets) s

/-- `parseMetricBuckets` over the comma-split pieces: each piece is trimmed
and parsed; the first failure aborts (`log.Fatal`), modelled as `none`. -/
def parseBucketList : List (List Char) → Option (List ℚ)
  | [] => some []
  | s :: rest =>
    match parseFloat (String.mk (trimChars s)) with
    | none => none
    | some q =>
      match parseBucketList rest with
      | none => none
      | some qs => some (q :: qs)

/-- `parseMetricBuckets` (source lines 110-120): split the configuration
string on commas and parse every trimmed entry, in order; any entry that
fails to parse is fatal at startup (`none`, modelling `log.Fatal` before
the pipeline and web server are started). -/
def parseMetricBuckets (metricBuckets : String) : Option (List ℚ) :=
  parseBucketList (splitOnChar ',' metricBuckets.data)

/-- `GetEnv` (source lines 48-54): read the variable from the environment;
a value of length zero falls back to the default. -/
def GetEnv (env : String → String) (key fallback : String) : String :=
  let value := env key
  if value.length = 0 then fallback else value

/-- The four configuration parameters of `readParameters`. -/
structure Parameters where
  listenAddress : String
  metricsPath : String
  syslogAddress : String
  metricBuckets : String
deriving DecidableEq

/-- Documented default listen address. -/
def defaultListenAddress : String := ":9147"

/-- Documented default telemetry path. -/
def defaultTelemetryPath : String := "/metrics"

/-- Documented default syslog listener address. -/
def defaultSyslogAddress : String := "0.0.0.0:9514"

/-- Documented default histogram bucket list. -/
def defaultBuckets : String := ".005,.01,.025,.05,.1,.25,.5,1,2.5,5,10"

/-- `readParameters` (source lines 190-212): each parameter is the
environment value when non-empty, the documented default otherwise (the
flag default is read before `flag.Parse`, so the fallback is always the
literal default). -/
def readParameters (env : String → String) : Parameters :=
  { listenAddress := GetEnv env "NRE_WEB_LISTEN_ADDRESS" defaultListenAddress
    metricsPath := GetEnv env "NRE_WEB_TELEMETRY_PATH" defaultTelemetryPath
    syslogAddress := GetEnv env "NRE_NGINX_SYSLOG_LISTENER" defaultSyslogAddress
    metricBuckets := GetEnv env "NRE_HISTOGRAM_BUCKETS" defaultBuckets }

/-- Is a message dropped by one of the three pre-parser checks (wrong tag,
empty transport hostname, empty content)? These are exactly the checks that
increment the parse-failure counter in `processMetricsFromSyslog`. -/
def preParseFailure (part : SyslogMessage) : Bool :=
  decide (part.tag ≠ "nginx" ∨ part.hostname = "" ∨ part.content = "")

/-- Resolve-and-observe for one metric identity `(name, L)`, repeated once
per element of `calls` (each element carries the label values and the
observed value of one `Observe` call), exactly as the metric loop performs
it for one parsed metric of a line. -/
def resolveObserveN (b : List ℚ) (name : String) (L : List String)
    (calls : List (List String × ℚ)) (reg : Registry) : Registry :=
  calls.foldl (fun r call => observeMetric b ⟨L, call.1⟩ r ⟨name, call.2⟩) reg

/-- The metric produced by a token, if it is a well-formed metric token. -/
def metricOf (t : String) : Option ParsedMetric :=
  match parseToken t with
  | .ok (.inl m) => some m
  | _ => none

/-- The label produced by a token, if it is a well-formed label token. -/
def labelOf (t : String) : Option (String × String) :=
  match parseToken t with
  | .ok (.inr l) => some l
  | _ => none

/-- Does the token classify without error? -/
def tokOk (t : String) : Bool :=
  match parseToken t with
  | .ok _ => true
  | .error _ => false

/-- Is this a colon token (metric-shaped)? -/
def hasColonTok (t : String) : Bool := t.data.contains ':'

/-- Is this an equals token (label-shaped)? -/
def hasEqTok (t : String) : Bool := t.data.contains '='

/-- The spec's worked example line. -/
def exampleLine : String := "time:0.123 status=200 host=\"example.com\" hostname=srv1"

lemma processMessage_counters (b : List ℚ) (s : PState) (part : SyslogMessage) :
    (processMessage b s part).syslogMessages = s.syslogMessages + 1
    ∧ (processMessage b s part).syslogParseFailures
        = s.syslogParseFailures + (if preParseFailure part then 1 else 0) := by
  unfold processMessage preParseFailure
  by_cases h1 : part.tag ≠ "nginx"
  · simp [h1]
  · by_cases h2 : part.hostname = ""
    · simp [h1, h2]
    · by_cases h3 : part.content = ""
      · simp [h1, h2, h3]
      · cases hp : parseMessage part.content with
        | error e => simp [h1, h2, h3, hp]
        | ok ml => simp [h1, h2, h3, hp]

lemma processStream_counters (b : List ℚ) :
    ∀ (msgs : List SyslogMessage) (s : PState),
    (processMetricsFromSyslog b s msgs).syslogMessages = s.syslogMessages + msgs.length
    ∧ (processMetricsFromSyslog b s msgs).syslogParseFailures
        = s.syslogParseFailures + (msgs.filter preParseFailure).length := by
  intro msgs
  induction msgs with
  | nil => intro s; simp [processMetricsFromSyslog]
  | cons part rest ih =>
    intro s
    have hstep := processMessage_counters b s part
    have hrest := ih (processMessage b s part)
    constructor
    · have : processMetricsFromSyslog b s (part :: rest)
          = processMetricsFromSyslog b (processMessage b s part) rest := rfl
      rw [this, hrest.1, hstep.1]
      simp [Nat.add_assoc, Nat.add_comm 1 rest.length]
    · have : processMetricsFromSyslog b s (part :: rest)
          = processMetricsFromSyslog b (processMessage b s part) rest := rfl
      rw [this, hrest.2, hstep.2]
      by_cases hf : preParseFailure part
      · simp [hf, Nat.add_assoc, Nat.add_comm 1 (rest.filter preParseFailure).length]
      · simp [hf]

/-- C1 counterexample: one message with the right tag, a hostname and
non-empty content whose line fails the Line Parser (no `hostname` label).
The claim requires the parse-failure counter to reach 1; the code only
logs the parser error and leaves the counter at 0. -/
theorem message_counter_invariant_counterexample :
    parseFails "status=200" = true
    ∧ (processMetricsFromSyslog [] initialState
        [⟨"nginx", "h", "status=200"⟩]).syslogMessages = 1
    ∧ (processMetricsFromSyslog [] initialState
        [⟨"nginx", "h", "status=200"⟩]).syslogParseFailures = 0 := by
  refine ⟨by decide, by decide, by decide⟩

/-- C1 (amended): after processing any finite stream of M messages the
received counter equals M (incremented unconditionally for every message),
and the parse-failure counter equals the number of messages dropped for a
wrong tag, a missing transport hostname, or empty content; Line Parser
failures are logged and dropped without incrementing the counter. -/
theorem message_counter_invariant (b : List ℚ) (msgs : List SyslogMessage) :
    (processMetricsFromSyslog b initialState msgs).syslogMessages = msgs.length
    ∧ (processMetricsFromSyslog b initialState msgs).syslogParseFailures
        = (msgs.filter preParseFailure).length := by
  have h := processStream_counters b msgs initialState
  simpa [initialState] using h

/-- C6: a message with a wrong transport tag or an empty transport hostname
increments the parse-failure counter, leaves the registry untouched, and is
processed identically for every content (the Line Parser is never consulted,
nothing is registered or observed). -/
theorem transport_validation_drops (b : List ℚ) (s : PState) (part : SyslogMessage)
    (h : part.tag ≠ "nginx" ∨ part.hostname = "") :
    processMessage b s part
      = { syslogMessages := s.syslogMessages + 1,
          syslogParseFailures := s.syslogParseFailures + 1,
          registry := s.registry }
    ∧ ∀ content, processMessage b s { part with content := content }
        = processMessage b s part := by
  by_cases h1 : part.tag ≠ "nginx"
  · constructor
    · simp [processMessage, h1]
    · intro content; simp [processMessage, h1]
  · have h2 : part.hostname = "" := h.resolve_left h1
    constructor
    · simp [processMessage, h1, h2]
    · intro content; simp [processMessage, h1, h2]

/-- C6 witness: a concrete wrongly-tagged message is dropped with exactly
one failure increment and without reading its content. -/
theorem transport_validation_drops_witness :
    processMessage [] initialState ⟨"apache", "h", "time:1 hostname=srv1"⟩
      = { syslogMessages := 1, syslogParseFailures := 1, registry := [] }
    ∧ ∀ content,
        processMessage [] initialState ⟨"apache", "h", content⟩
          = processMessage [] initialState ⟨"apache", "h", "time:1 hostname=srv1"⟩ :=
  transport_validation_drops [] initialState ⟨"apache", "h", "time:1 hostname=srv1"⟩
    (Or.inl (by decide))

/-- C5 counterexample: the claim says an empty input is not counted as a
parse failure, but the pipeline increments the parse-failure counter for a
message with empty content (and the spec-modelled parser itself rejects the
empty line for lack of a `hostname` label). -/
theorem empty_input_noop_counterexample :
    (processMetricsFromSyslog [] initialState [⟨"nginx", "h", ""⟩]).syslogParseFailures = 1
    ∧ parseMessage "" = .error .missingHostname := by
  refine ⟨by decide, by decide⟩

/-- C5 (amended): a message with empty content is dropped before the Line
Parser with a parse-failure increment and no change to the registry; a
message whose content parses successfully with zero metric tokens is a
no-op downstream — no collector is registered, no observation is recorded,
and the parse-failure counter is unchanged. -/
theorem zero_metric_messages (b : List ℚ) (s : PState) (part : SyslogMessage)
    (htag : part.tag = "nginx") (hhost : part.hostname ≠ "") :
    (part.content = "" →
      processMessage b s part
        = { syslogMessages := s.syslogMessages + 1,
            syslogParseFailures := s.syslogParseFailures + 1,
            registry := s.registry })
    ∧ ∀ ls, parseMessage part.content = .ok ([], ls) →
        processMessage b s part
          = { syslogMessages := s.syslogMessages + 1,
              syslogParseFailures := s.syslogParseFailures,
              registry := s.registry } := by
  constructor
  · intro hc
    simp [processMessage, htag, hhost, hc]
  · intro ls hok
    have hc : part.content ≠ "" := by
      intro hc
      rw [hc] at hok
      have hempty : parseMessage "" = .error .missingHostname := by decide
      rw [hempty] at hok
      exact Except.noConfusion hok
    simp [processMessage, htag, hhost, hc, hok, observeMetrics]

/-- C5 witness: a concrete empty-content message is counted as a failure; a
concrete metric-less line (`hostname=srv1`) is accepted and is a no-op. -/
theorem zero_metric_messages_witness :
    processMessage [] initialState ⟨"nginx", "h", ""⟩
      = { syslogMessages := 1, syslogParseFailures := 1, registry := [] }
    ∧ processMessage [] initialState ⟨"nginx", "h", "hostname=srv1"⟩
      = { syslogMessages := 1, syslogParseFailures := 0, registry := [] } :=
  ⟨(zero_metric_messages [] initialState ⟨"nginx", "h", ""⟩ rfl (by decide)).1 rfl,
   (zero_metric_messages [] initialState ⟨"nginx", "h", "hostname=srv1"⟩ rfl
      (by decide)).2 ⟨["hostname"], ["srv1"]⟩ (by decide)⟩

lemma regFind_regUpdate_self (reg : Registry) (name : String) (c : Collector) :
    regFind (regUpdate reg name c) name = some c := by
  induction reg with
  | nil => simp [regUpdate, regFind]
  | cons p rest ih =>
    by_cases h : p.1 = name
    · simp [regUpdate, regFind, h]
    · simp [regUpdate, regFind, h, ih]

lemma regFind_mem {reg : Registry} {name : String} {c : Collector}
    (h : regFind reg name = some c) : (name, c) ∈ reg := by
  induction reg with
  | nil => simp [regFind] at h
  | cons p rest ih =>
    by_cases hp : p.1 = name
    · rw [regFind, if_pos hp] at h
      have : p = (name, c) := by
        cases p
        simp_all
      simp [this]
    · rw [regFind, if_neg hp] at h
      exact List.mem_cons_of_mem _ (ih h)

lemma countName_eq_zero {reg : Registry} {name : String}
    (h : regFind reg name = none) : countName reg name = 0 := by
  induction reg with
  | nil => simp [countName]
  | cons p rest ih =>
    by_cases hp : p.1 = name
    · rw [regFind, if_pos hp] at h
      exact Option.noConfusion h
    · rw [regFind, if_neg hp] at h
      simp [countName, List.filter, hp] at ih ⊢
      exact ih h

lemma countName_regUpdate_of_none {reg : Registry} {name : String}
    (h : regFind reg name = none) (c : Collector) :
    countName (regUpdate reg name c) name = countName reg name + 1 := by
  induction reg with
  | nil => simp [regUpdate, countName, List.filter]
  | cons p rest ih =>
    by_cases hp : p.1 = name
    · rw [regFind, if_pos hp] at h
      exact Option.noConfusion h
    · rw [regFind, if_neg hp] at h
      simp [regUpdate, countName, List.filter, hp] at ih ⊢
      exact ih h

lemma countName_regUpdate_of_found {reg : Registry} {name : String} {c0 : Collector}
    (h : regFind reg name = some c0) (c : Collector) :
    countName (regUpdate reg name c) name = countName reg name := by
  induction reg with
  | nil => simp [regFind] at h
  | cons p rest ih =>
    by_cases hp : p.1 = name
    · simp [regUpdate, countName, List.filter, hp]
    · rw [regFind, if_neg hp] at h
      simp [regUpdate, countName, List.filter, hp] at ih ⊢
      exact ih h

lemma resolveObserveN_found (b : List ℚ) (name : String) (L : List String) :
    ∀ (calls : List (List String × ℚ)) (reg : Registry) (c : Collector),
      regFind reg name = some c → c.labelNames = L →
      regFind (resolveObserveN b name L calls reg) name
          = some ⟨c.buckets, c.labelNames, c.obs ++ calls⟩
      ∧ countName (resolveObserveN b name L calls reg) name = countName reg name := by
  intro calls
  induction calls with
  | nil =>
    intro reg c h hL
    have hc : (⟨c.buckets, c.labelNames, c.obs ++ []⟩ : Collector) = c := by
      rw [List.append_nil]
    rw [resolveObserveN, List.foldl_nil, hc]
    exact ⟨h, rfl⟩
  | cons call rest ih =>
    intro reg c h hL
    have hstep : observeMetric b ⟨L, call.1⟩ reg ⟨name, call.2⟩
        = regUpdate reg name ⟨c.buckets, c.labelNames, c.obs ++ [call]⟩ := by
      simp [observeMetric, h, hL]
    have hfold : resolveObserveN b name L (call :: rest) reg
        = resolveObserveN b name L rest (observeMetric b ⟨L, call.1⟩ reg ⟨name, call.2⟩) := rfl
    rw [hfold, hstep]
    have hfind := regFind_regUpdate_self reg name ⟨c.buckets, c.labelNames, c.obs ++ [call]⟩
    have := ih (regUpdate reg name ⟨c.buckets, c.labelNames, c.obs ++ [call]⟩)
      ⟨c.buckets, c.labelNames, c.obs ++ [call]⟩ hfind hL
    refine ⟨?_, ?_⟩
    · rw [this.1]
      simp
    · rw [this.2, countName_regUpdate_of_found h]

/-- C2: resolving one MetricIdentity `(name, L)` N ≥ 1 times against a
registry that does not yet hold the name yields a single registered
collector adopted by every call: its label names are `L`, its recorded
observations are exactly the N calls in order, its count equals N, its sum
equals the sum of the observed values, and the registry holds exactly one
entry for the name — never two independently-accumulating collectors. -/
theorem registry_resolution_idempotent (b : List ℚ) (name : String) (L : List String)
    (c0 : List String × ℚ) (calls : List (List String × ℚ)) (reg : Registry)
    (h : regFind reg name = none) :
    ∃ c, regFind (resolveObserveN b name L (c0 :: calls) reg) name = some c
      ∧ c.labelNames = L
      ∧ c.obs = c0 :: calls
      ∧ c.obs.length = (c0 :: calls).length
      ∧ (c.obs.map Prod.snd).sum = ((c0 :: calls).map Prod.snd).sum
      ∧ countName (resolveObserveN b name L (c0 :: calls) reg) name = 1 := by
  have hstep : observeMetric b ⟨L, c0.1⟩ reg ⟨name, c0.2⟩
      = regUpdate reg name ⟨b, L, [c0]⟩ := by
    simp [observeMetric, h]
  have hfold : resolveObserveN b name L (c0 :: calls) reg
      = resolveObserveN b name L calls (observeMetric b ⟨L, c0.1⟩ reg ⟨name, c0.2⟩) := rfl
  have hfind := regFind_regUpdate_self reg name ⟨b, L, [c0]⟩
  have hmain := resolveObserveN_found b name L calls
    (regUpdate reg name ⟨b, L, [c0]⟩) ⟨b, L, [c0]⟩ hfind rfl
  refine ⟨⟨b, L, c0 :: calls⟩, ?_, rfl, rfl, rfl, rfl, ?_⟩
  · rw [hfold, hstep]
    simpa using hmain.1
  · rw [hfold, hstep, hmain.2, countName_regUpdate_of_none h, countName_eq_zero h]

/-- C2 witness: two observations of `time` with label values `srv1` build a
single collector holding both, with count 2 and the registry holding one
entry for `time`. -/
theorem registry_resolution_idempotent_witness :
    regFind ([] : Registry) "time" = none
    ∧ ∃ c, regFind (resolveObserveN [] "time" ["hostname"]
          [(["srv1"], mkRat 1 1), (["srv1"], mkRat 2 1)] []) "time" = some c
      ∧ c.labelNames = ["hostname"]
      ∧ c.obs = [(["srv1"], mkRat 1 1), (["srv1"], mkRat 2 1)]
      ∧ c.obs.length = ([(["srv1"], mkRat 1 1), (["srv1"], mkRat 2 1)]).length
      ∧ (c.obs.map Prod.snd).sum
          = (([(["srv1"], mkRat 1 1), (["srv1"], mkRat 2 1)]).map Prod.snd).sum
      ∧ countName (resolveObserveN [] "time" ["hostname"]
          [(["srv1"], mkRat 1 1), (["srv1"], mkRat 2 1)] []) "time" = 1 :=
  ⟨rfl, registry_resolution_idempotent [] "time" ["hostname"]
    (["srv1"], mkRat 1 1) [(["srv1"], mkRat 2 1)] [] rfl⟩

/-- C4: resolving a metric name already registered with a different
label-name sequence fails for that single metric: the registry (hence the
previously registered collector's accumulated state) is unchanged, the rest
of the line's metrics are processed exactly as if the conflicting metric
were absent, and a message whose line parses successfully never increments
the message-level parse-failure counter, conflicts included. -/
theorem labelset_conflict_metric_scoped (b : List ℚ) (labels : LabelSet)
    (reg : Registry) (name : String) (v : ℚ) (c : Collector)
    (rest : List ParsedMetric)
    (h : regFind reg name = some c) (hne : c.labelNames ≠ labels.names) :
    observeMetric b labels reg ⟨name, v⟩ = reg
    ∧ observeMetrics b labels (⟨name, v⟩ :: rest) reg = observeMetrics b labels rest reg
    ∧ ∀ (s : PState) (part : SyslogMessage) (ml : List ParsedMetric × LabelSet),
        part.tag = "nginx" → part.hostname ≠ "" → part.content ≠ "" →
        parseMessage part.content = .ok ml →
        (processMessage b s part).syslogParseFailures = s.syslogParseFailures := by
  have h1 : observeMetric b labels reg ⟨name, v⟩ = reg := by
    simp [observeMetric, h, hne]
  refine ⟨h1, ?_, ?_⟩
  · show observeMetrics b labels rest (observeMetric b labels reg ⟨name, v⟩)
        = observeMetrics b labels rest reg
    rw [h1]
  · intro s part ml htag hhost hcontent hok
    simp [processMessage, htag, hhost, hcontent, hok]

/-- C4 witness: `latency` registered with labels `[host]`; resolving
`latency` with labels `[host, status]` leaves the registry unchanged while
the remaining metric of the line is still observed, and a successfully
parsed message leaves the failure counter at its input value. -/
theorem labelset_conflict_metric_scoped_witness :
    observeMetric [] ⟨["host", "status"], ["a", "200"]⟩
        [("latency", ⟨[], ["host"], [(["a"], mkRat 1 1)]⟩)] ⟨"latency", mkRat 2 1⟩
      = [("latency", ⟨[], ["host"], [(["a"], mkRat 1 1)]⟩)]
    ∧ observeMetrics [] ⟨["host", "status"], ["a", "200"]⟩
        [⟨"latency", mkRat 2 1⟩, ⟨"time", mkRat 3 1⟩]
        [("latency", ⟨[], ["host"], [(["a"], mkRat 1 1)]⟩)]
      = observeMetrics [] ⟨["host", "status"], ["a", "200"]⟩ [⟨"time", mkRat 3 1⟩]
        [("latency", ⟨[], ["host"], [(["a"], mkRat 1 1)]⟩)]
    ∧ (processMessage [] initialState ⟨"nginx", "h", "time:1 hostname=srv1"⟩).syslogParseFailures
        = initialState.syslogParseFailures :=
  by
  have hmain := labelset_conflict_metric_scoped [] ⟨["host", "status"], ["a", "200"]⟩
    [("latency", ⟨[], ["host"], [(["a"], mkRat 1 1)]⟩)] "latency" (mkRat 2 1)
    ⟨[], ["host"], [(["a"], mkRat 1 1)]⟩ [⟨"time", mkRat 3 1⟩] (by decide) (by decide)
  exact ⟨hmain.1, hmain.2.1,
    hmain.2.2 initialState ⟨"nginx", "h", "time:1 hostname=srv1"⟩
      ([⟨"time", mkRat 1 1⟩], ⟨["hostname"], ["srv1"]⟩)
      rfl (by decide) (by decide) (by decide)⟩

lemma regUpdate_pred {P : String × Collector → Prop} :
    ∀ (reg : Registry) (name : String) (c : Collector),
      (∀ p ∈ reg, P p) → P (name, c) → ∀ p ∈ regUpdate reg name c, P p := by
  intro reg
  induction reg with
  | nil =>
    intro name c _ hc p hp
    simp [regUpdate] at hp
    subst hp
    exact hc
  | cons q rest ih =>
    intro name c hall hc p hp
    by_cases hq : q.1 = name
    · rw [regUpdate, if_pos hq] at hp
      rcases List.mem_cons.1 hp with h | h
      · subst h; exact hc
      · exact hall p (List.mem_cons_of_mem _ h)
    · rw [regUpdate, if_neg hq] at hp
      rcases List.mem_cons.1 hp with h | h
      · subst h; exact hall p (List.mem_cons_self p rest)
      · exact ih name c (fun r hr => hall r (List.mem_cons_of_mem _ hr)) hc p h

lemma observeMetric_buckets {b : List ℚ} {labels : LabelSet} {reg : Registry}
    {m : ParsedMetric} (h : ∀ p ∈ reg, p.2.buckets = b) :
    ∀ p ∈ observeMetric b labels reg m, p.2.buckets = b := by
  unfold observeMetric
  cases hf : regFind reg m.name with
  | none => exact regUpdate_pred reg m.name _ h rfl
  | some c =>
    by_cases hL : c.labelNames = labels.names
    · have hcb : c.buckets = b := h (m.name, c) (regFind_mem hf)
      simpa [hL] using regUpdate_pred reg m.name
        ⟨c.buckets, c.labelNames, c.obs ++ [(labels.values, m.value)]⟩ h hcb
    · simpa [hL] using h

lemma observeMetrics_buckets {b : List ℚ} {labels : LabelSet} :
    ∀ (ms : List ParsedMetric) (reg : Registry),
      (∀ p ∈ reg, p.2.buckets = b) →
      ∀ p ∈ observeMetrics b labels ms reg, p.2.buckets = b := by
  intro ms
  induction ms with
  | nil => intro reg h; exact h
  | cons m rest ih =>
    intro reg h
    exact ih (observeMetric b labels reg m) (observeMetric_buckets h)

lemma processMessage_buckets {b : List ℚ} {s : PState} {part : SyslogMessage}
    (h : ∀ p ∈ s.registry, p.2.buckets = b) :
    ∀ p ∈ (processMessage b s part).registry, p.2.buckets = b := by
  unfold processMessage
  by_cases h1 : part.tag ≠ "nginx"
  · simpa [h1] using h
  · by_cases h2 : part.hostname = ""
    · simpa [h1, h2] using h
    · by_cases h3 : part.content = ""
      · simpa [h1, h2, h3] using h
      · cases hp : parseMessage part.content with
        | error e => simpa [h1, h2, h3, hp] using h
        | ok ml =>
          simpa [h1, h2, h3, hp] using observeMetrics_buckets ml.1 s.registry h

/-- C8 counterexample: the claim describes the startup-parsed bucket list as
strictly increasing, but `parseMetricBuckets` performs no monotonicity
check: the configuration `"5,1"` is accepted at startup and the collector
it feeds is created with the non-increasing boundary list `[5, 1]`. -/
theorem startup_buckets_counterexample :
    parseMetricBuckets "5,1" = some [(5 : ℚ), 1]
    ∧ ¬ ((5 : ℚ) < 1)
    ∧ regFind (processMetricsFromSyslog [(5 : ℚ), 1] initialState
          [⟨"nginx", "h", "time:1 hostname=srv1"⟩]).registry "time"
        = some ⟨[5, 1], ["hostname"], [(["srv1"], 1)]⟩ := by
  refine ⟨by decide, by decide, by decide⟩

/-- C8 (amended): every collector in the registry after processing any
finite stream from startup carries exactly the bucket-boundary list that
the pipeline was started with (the list `parseMetricBuckets` produced, in
configuration order; no strict-increase validation is performed); no
collector ever uses different boundaries. -/
theorem collectors_share_startup_buckets (b : List ℚ) (msgs : List SyslogMessage) :
    ∀ p ∈ (processMetricsFromSyslog b initialState msgs).registry, p.2.buckets = b := by
  suffices hgen : ∀ (ms : List SyslogMessage) (s : PState),
      (∀ p ∈ s.registry, p.2.buckets = b) →
      ∀ p ∈ (processMetricsFromSyslog b s ms).registry, p.2.buckets = b by
    exact hgen msgs initialState (by simp [initialState])
  intro ms
  induction ms with
  | nil => intro s h; exact h
  | cons part rest ih =>
    intro s h
    exact ih (processMessage b s part) (processMessage_buckets h)

/-- C8 witness: after one concrete message the single collector created
carries the startup bucket list. -/
theorem collectors_share_startup_buckets_witness :
    (("time", (⟨[(5 : ℚ), 1], ["hostname"], [(["srv1"], 1)]⟩ : Collector))
        ∈ (processMetricsFromSyslog [(5 : ℚ), 1] initialState
            [⟨"nginx", "h", "time:1 hostname=srv1"⟩]).registry)
    ∧ (⟨[(5 : ℚ), 1], ["hostname"], [(["srv1"], 1)]⟩ : Collector).buckets = [(5 : ℚ), 1] :=
  ⟨by decide,
   collectors_share_startup_buckets [(5 : ℚ), 1] [⟨"nginx", "h", "time:1 hostname=srv1"⟩]
     ("time", ⟨[(5 : ℚ), 1], ["hostname"], [(["srv1"], 1)]⟩) (by decide)⟩

lemma parseTokens_of_ok : ∀ ts : List String, (∀ t ∈ ts, tokOk t = true) →
    parseTokens ts = .ok (ts.filterMap metricOf, ts.filterMap labelOf) := by
  intro ts
  induction ts with
  | nil => intro _; rfl
  | cons t ts ih =>
    intro h
    have ht := h t (List.mem_cons_self t ts)
    have hrest := ih (fun t' ht' => h t' (List.mem_cons_of_mem _ ht'))
    cases hp : parseToken t with
    | error e => simp [tokOk, hp] at ht
    | ok r =>
      cases r with
      | inl m => simp [parseTokens, hp, hrest, List.filterMap_cons, metricOf, labelOf]
      | inr l => simp [parseTokens, hp, hrest, List.filterMap_cons, metricOf, labelOf]

lemma parseToken_shape (t : String) (h : tokOk t = true) :
    (metricOf t).isSome = hasColonTok t ∧ (labelOf t).isSome = hasEqTok t := by
  by_cases hc : ':' ∈ t.data
  · by_cases he : '=' ∈ t.data
    · exfalso
      simp [tokOk, parseToken, hc, he] at h
    · cases hf : parseFloat (String.mk (splitTokenAt ':' t.data).2) with
      | none =>
        exfalso
        simp [tokOk, parseToken, hc, he, hf] at h
      | some q =>
        constructor
        · simp [metricOf, parseToken, hc, he, hf, hasColonTok]
        · simp [labelOf, parseToken, hc, he, hf, hasEqTok]
  · by_cases he : '=' ∈ t.data
    · constructor
      · simp [metricOf, parseToken, hc, he, hasColonTok]
      · simp [labelOf, parseToken, hc, he, hasEqTok]
    · exfalso
      simp [tokOk, parseToken, hc, he] at h

lemma count_tokens : ∀ ts : List String, (∀ t ∈ ts, tokOk t = true) →
    (ts.filterMap metricOf).length = (ts.filter hasColonTok).length
    ∧ (ts.filterMap labelOf).length = (ts.filter hasEqTok).length := by
  intro ts
  induction ts with
  | nil => intro _; exact ⟨rfl, rfl⟩
  | cons t ts ih =>
    intro h
    have ht := h t (List.mem_cons_self t ts)
    have hrest := ih (fun t' ht' => h t' (List.mem_cons_of_mem _ ht'))
    have hshape := parseToken_shape t ht
    constructor
    · rw [List.filterMap_cons, List.filter_cons]
      cases hm : metricOf t with
      | none =>
        have hcol : hasColonTok t = false := by rw [← hshape.1, hm]; rfl
        simp [hcol, hrest.1]
      | some m =>
        have hcol : hasColonTok t = true := by rw [← hshape.1, hm]; rfl
        simp [hcol, hrest.1]
    · rw [List.filterMap_cons, List.filter_cons]
      cases hm : labelOf t with
      | none =>
        have heq : hasEqTok t = false := by rw [← hshape.2, hm]; rfl
        simp [heq, hrest.2]
      | some l =>
        have heq : hasEqTok t = true := by rw [← hshape.2, hm]; rfl
        simp [heq, hrest.2]

lemma parseTokens_first_error : ∀ (pre : List String) (t : String) (ts : List String)
    (e : ParseError), (∀ t' ∈ pre, tokOk t' = true) → parseToken t = .error e →
    parseTokens (pre ++ t :: ts) = .error e := by
  intro pre
  induction pre with
  | nil =>
    intro t ts e _ ht
    simp [parseTokens, ht]
  | cons q rest ih =>
    intro t ts e hall ht
    have hq := hall q (List.mem_cons_self q rest)
    cases hpq : parseToken q with
    | error e2 => simp [tokOk, hpq] at hq
    | ok r =>
      have htail := ih t ts e (fun t' ht' => hall t' (List.mem_cons_of_mem _ ht')) ht
      simp [parseTokens, hpq, htail]

/-- C3: for a well-formed line (every whitespace-separated token classifies
without error) whose labels include a non-empty `hostname`, `parse` returns
exactly the metrics of the colon tokens and the labels of the equals
tokens, in input order — one metric per colon token and one label per
equals token — and on the spec's example line it yields metrics
`[{time, 0.123}]` and labels `{names:[status,host,hostname],
values:[200,example.com,srv1]}` with the quotes stripped from the quoted
label value. -/
theorem lineParser_wellformed_shape (line : String)
    (h : ∀ t ∈ tokenize line, tokOk t = true)
    (hh : hostnameOk ((tokenize line).filterMap labelOf) = true) :
    parseMessage line
      = .ok ((tokenize line).filterMap metricOf,
          ⟨((tokenize line).filterMap labelOf).map Prod.fst,
           ((tokenize line).filterMap labelOf).map Prod.snd⟩)
    ∧ ((tokenize line).filterMap metricOf).length
        = ((tokenize line).filter hasColonTok).length
    ∧ ((tokenize line).filterMap labelOf).length
        = ((tokenize line).filter hasEqTok).length
    ∧ parseMessage exampleLine
        = .ok ([⟨"time", (0.123 : ℚ)⟩],
            ⟨["status", "host", "hostname"], ["200", "example.com", "srv1"]⟩) := by
  have hp := parseTokens_of_ok (tokenize line) h
  have hcount := count_tokens (tokenize line) h
  refine ⟨?_, hcount.1, hcount.2, ?_⟩
  · simp [parseMessage, hp, hh]
  · have hq : (0.123 : ℚ) = mkRat 123 1000 := by norm_num [Rat.ofScientific_def]
    rw [hq]
    decide

/-- C3 witness: the theorem applied to the spec's example line, whose
tokens all classify and whose labels include `hostname=srv1`. -/
theorem lineParser_wellformed_shape_witness :
    parseMessage exampleLine
      = .ok ((tokenize exampleLine).filterMap metricOf,
          ⟨((tokenize exampleLine).filterMap labelOf).map Prod.fst,
           ((tokenize exampleLine).filterMap labelOf).map Prod.snd⟩)
    ∧ ((tokenize exampleLine).filterMap metricOf).length
        = ((tokenize exampleLine).filter hasColonTok).length
    ∧ ((tokenize exampleLine).filterMap labelOf).length
        = ((tokenize exampleLine).filter hasEqTok).length
    ∧ parseMessage exampleLine
        = .ok ([⟨"time", (0.123 : ℚ)⟩],
            ⟨["status", "host", "hostname"], ["200", "example.com", "srv1"]⟩) :=
  lineParser_wellformed_shape exampleLine (by decide) (by decide)

/-- C9: a line whose tokens all classify but whose labels lack a non-empty
`hostname` fails with the missing-hostname error (so `parse("status=200")`
fails); an invalid metric value surfaces as `invalidMetricValue` naming the
metric's key: the first failing token decides the line error, a colon token
whose value does not parse as a number classifies as `invalidMetricValue`
of its key, and `parse("time:abc hostname=srv1")` fails with
`invalidMetricValue "time"`. -/
theorem lineParser_error_cases (line : String)
    (ml : List ParsedMetric × List (String × String))
    (hp : parseTokens (tokenize line) = .ok ml) (hh : hostnameOk ml.2 = false) :
    parseMessage line = .error .missingHostname
    ∧ (∀ (line2 : String) (k : String),
        parseTokens (tokenize line2) = .error (.invalidMetricValue k) →
        parseMessage line2 = .error (.invalidMetricValue k))
    ∧ (∀ (pre : List String) (t : String) (ts : List String) (e : ParseError),
        (∀ t' ∈ pre, tokOk t' = true) → parseToken t = .error e →
        parseTokens (pre ++ t :: ts) = .error e)
    ∧ (∀ t : String, ':' ∈ t.data → '=' ∉ t.data →
        parseFloat (String.mk (splitTokenAt ':' t.data).2) = none →
        parseToken t = .error (.invalidMetricValue (String.mk (splitTokenAt ':' t.data).1)))
    ∧ parseMessage "status=200" = .error .missingHostname
    ∧ parseMessage "time:abc hostname=srv1" = .error (.invalidMetricValue "time") := by
  refine ⟨?_, ?_, parseTokens_first_error, ?_, by decide, by decide⟩
  · simp [parseMessage, hp, hh]
  · intro line2 k h2
    simp [parseMessage, h2]
  · intro t hc he hf
    simp [parseToken, hc, he, hf]

/-- C9 witness: the theorem applied to `status=200`, a line whose only
token classifies as a label yet which lacks the mandatory `hostname`. -/
theorem lineParser_error_cases_witness :
    parseMessage "status=200" = .error .missingHostname :=
  (lineParser_error_cases "status=200" ([], [("status", "200")])
    (by decide) (by decide)).1

lemma parseBucketList_none : ∀ (l : List (List Char)) (entry : List Char),
    entry ∈ l → parseFloat (String.mk (trimChars entry)) = none →
    parseBucketList l = none := by
  intro l
  induction l with
  | nil => intro entry h; simp at h
  | cons s rest ih =>
    intro entry hmem hf
    rcases List.mem_cons.1 hmem with h | h
    · subst h
      simp [parseBucketList, hf]
    · cases hs : parseFloat (String.mk (trimChars s)) with
      | none => simp [parseBucketList, hs]
      | some q => simp [parseBucketList, hs, ih entry h hf]

/-- C7: the bucket configuration `".005,.01,.025"` parses to
`[0.005, 0.01, 0.025]` in input order, and any configuration string with an
entry that does not parse as a number fails bucket parsing altogether —
`parseMetricBuckets` runs once in `main` before the consumer and the web
server are started, so the failure (`log.Fatal`, modelled as `none`) is
fatal at startup and never a per-message condition. -/
theorem bucket_boundary_parsing :
    parseMetricBuckets ".005,.01,.025" = some [(0.005 : ℚ), 0.01, 0.025]
    ∧ (∀ (s : String) (entry : List Char), entry ∈ splitOnChar ',' s.data →
        parseFloat (String.mk (trimChars entry)) = none →
        parseMetricBuckets s = none) := by
  constructor
  · have heq : parseMetricBuckets ".005,.01,.025"
        = some [mkRat 1 200, mkRat 1 100, mkRat 1 40] := by decide
    have h1 : (0.005 : ℚ) = mkRat 1 200 := by norm_num [Rat.ofScientific_def]
    have h2 : (0.01 : ℚ) = mkRat 1 100 := by norm_num [Rat.ofScientific_def]
    have h3 : (0.025 : ℚ) = mkRat 1 40 := by norm_num [Rat.ofScientific_def]
    rw [heq, h1, h2, h3]
  · intro s entry hmem hf
    exact parseBucketList_none (splitOnChar ',' s.data) entry hmem hf

/-- C7 witness: a configuration with the non-numeric entry `abc` fails. -/
theorem bucket_boundary_parsing_witness :
    parseMetricBuckets ".005,abc" = none :=
  bucket_boundary_parsing.2 ".005,abc" "abc".data (by decide) (by decide)

/-- C10: `GetEnv` treats an environment value of length zero exactly like
an unset variable — it returns the fallback — and returns the value
otherwise, so with the non-empty documented defaults no configuration
parameter of `readParameters` is ever empty, regardless of the
environment. -/
theorem getEnv_empty_equals_unset (env : String → String) (key fallback : String) :
    GetEnv env key fallback = (if (env key).length = 0 then fallback else env key)
    ∧ ((env key).length = 0 → GetEnv env key fallback = fallback)
    ∧ ((env key).length ≠ 0 → GetEnv env key fallback = env key)
    ∧ (fallback ≠ "" → GetEnv env key fallback ≠ "")
    ∧ (readParameters env).listenAddress ≠ ""
    ∧ (readParameters env).metricsPath ≠ ""
    ∧ (readParameters env).syslogAddress ≠ ""
    ∧ (readParameters env).metricBuckets ≠ "" := by
  have hne : ∀ (k fb : String), fb ≠ "" → GetEnv env k fb ≠ "" := by
    intro k fb hfb
    unfold GetEnv
    by_cases hl : (env k).length = 0
    · simpa [hl] using hfb
    · intro hcontra
      simp [hl] at hcontra
      rw [hcontra] at hl
      exact hl rfl
  refine ⟨rfl, ?_, ?_, hne key fallback, ?_, ?_, ?_, ?_⟩
  · intro h; simp [GetEnv, h]
  · intro h; simp [GetEnv, h]
  · exact hne _ defaultListenAddress (by decide)
  · exact hne _ defaultTelemetryPath (by decide)
  · exact hne _ defaultSyslogAddress (by decide)
  · exact hne _ defaultBuckets (by decide)

/-- C10 witness: an empty-string override falls back to the default, a
non-empty override is returned unchanged. -/
theorem getEnv_empty_equals_unset_witness :
    GetEnv (fun _ => "") "NRE_WEB_LISTEN_ADDRESS" ":9147" = ":9147"
    ∧ GetEnv (fun _ => ":8080") "NRE_WEB_LISTEN_ADDRESS" ":9147" = ":8080" :=
  ⟨(getEnv_empty_equals_unset (fun _ => "") "NRE_WEB_LISTEN_ADDRESS" ":9147").2.1 rfl,
   (getEnv_empty_equals_unset (fun _ => ":8080") "NRE_WEB_LISTEN_ADDRESS" ":9147").2.2.1
     (by decide)⟩
